import Mathlib

/-!
Shallow embedding of `gdtools/dice.py`: the `normalize_rng` function and the
`Dice` and `DicePool` classes, together with theorems checking the
claims of the specification about them.

Modelling conventions:
* Python `range(a, b)` (step 1) is `Rng` with fields `start`, `stop`; its
  value sequence is `Rng.toList`.
* Python floats are modelled as rationals (`ℚ`); every float produced by the
  code under scrutiny is a quotient of small integers, where float and
  rational arithmetic agree on the stated equalities.
* Fallible code (Python exceptions) is modelled with `Except String`.
* `random.randrange` is modelled by passing the drawn index explicitly: a call
  `randrange(n)` becomes a parameter `i : Nat` ranging over the valid draws
  `i < n`.
-/

/-- A Python `range(start, stop)` with the implicit step 1. -/
structure Rng where
  start : Int
  stop : Int
deriving DecidableEq, Repr

/-- The value sequence of a step-1 Python range: `start, start+1, ..., stop-1`
(empty when `stop ≤ start`). -/
def Rng.toList (r : Rng) : List Int :=
  (List.range (r.stop - r.start).toNat).map (fun i => r.start + i)

/-- Python `range.__eq__`: two ranges are equal when they denote the same
value sequence (so all empty ranges are equal to each other). -/
def pyRangeEq (r s : Rng) : Bool :=
  r.toList == s.toList

/-- `normalize_rng` from `dice.py`: `mod = rng.start - 1`, result
`(range(rng.start - mod, rng.stop - mod), mod)`.  The `Dice` case of the
Python `Union` first projects the die to its `rng` field, so the function is
defined on ranges. -/
def normalize_rng (rng : Rng) : Rng × Int :=
  let mod := rng.start - 1
  (⟨rng.start - mod, rng.stop - mod⟩, mod)

/-- The `Dice` class: the stored range and the derived attributes computed in
`Dice.__init__`. -/
structure Dice where
  rng : Rng
  avg : ℚ
  min : Int
  max : Int
  sides : Int
deriving DecidableEq, Repr

/-- The field assignments of `Dice.__init__` (after the integer type check and
assuming the division in the average does not fail): `rng` is `range(1, p1+1)` or
`range(p1, p2+1)`, `avg = sum(rng)/(rng.stop - 1)`, `min = rng.start`,
`max = rng.stop - 1`, `sides = max`. -/
def diceMk (p1 : Int) (p2 : Option Int) : Dice :=
  let rng : Rng := match p2 with
    | none => ⟨1, p1 + 1⟩
    | some q => ⟨p1, q + 1⟩
  { rng := rng
    avg := (rng.toList.sum : ℚ) / ((rng.stop - 1 : Int) : ℚ)
    min := rng.start
    max := rng.stop - 1
    sides := rng.stop - 1 }

/-- `Dice.__init__` as a fallible constructor: with integer arguments the only
possible failure is the `ZeroDivisionError` raised by
`sum(self.rng) / (self.rng.stop - 1)` when `rng.stop - 1 == 0`, i.e. when the
single-argument form gets `p1 = 0` or the two-argument form gets `p2 = 0`
(the `ValueError` for non-integer arguments is outside this integer-typed
model). -/
def diceInit (p1 : Int) (p2 : Option Int) : Except String Dice :=
  if p2.getD p1 = 0 then Except.error "ZeroDivisionError: division by zero"
  else Except.ok (diceMk p1 p2)

/-- `Dice.roll`: `random.randrange(self.rng.start, self.rng.stop)` returns
`start + i` for a drawn index `i` with `i < stop - start`. -/
def Dice.roll (d : Dice) (i : Nat) : Int :=
  d.rng.start + i

/-- `Dice.rgt`: `len(list(filter(lambda i: i > threshold, self.rng))) / self.max`
(note the denominator is `self.max`, not the number of faces). -/
def Dice.rgt (d : Dice) (t : Int) : ℚ :=
  (((d.rng.toList.filter (fun i => t < i)).length : Int) : ℚ) / ((d.max : Int) : ℚ)

/-- `Dice._chances`: the source computes `total_chances` and then evaluates
`len(result for result in self.rng if comparator(result, threshold))` —
`len` applied to a generator expression, which raises `TypeError` in Python
before any comparison happens.  The call therefore always fails. -/
def Dice.chancesImpl (d : Dice) (t : Int) (cmp : Int → Int → Bool) : Except String ℚ :=
  let _total_chances := d.rng.stop - d.rng.start
  let _unused := fun x => cmp x t
  Except.error "TypeError: object of type generator has no len"

/-- `Dice.rge`: delegates to `_chances` with `lambda a, b: a >= b`. -/
def Dice.rge (d : Dice) (t : Int) : Except String ℚ :=
  d.chancesImpl t (fun a b => b ≤ a)

/-- `Dice.rlt`: delegates to `_chances` with `lambda a, b: a < b`. -/
def Dice.rlt (d : Dice) (t : Int) : Except String ℚ :=
  d.chancesImpl t (fun a b => a < b)

/-- `Dice.rle`: delegates to `_chances` with `lambda a, b: a <= b`. -/
def Dice.rle (d : Dice) (t : Int) : Except String ℚ :=
  d.chancesImpl t (fun a b => a ≤ b)

/-- The primary state of a `DicePool`: the tuple of canonicalized ranges and
the accumulated modifier.  The derived distribution is recomputed from these
by `DicePool.distList` (the source caches it eagerly; the cached value is a
pure function of `rngs` and `mod`). -/
structure DicePool where
  rngs : List Rng
  mod : Int
deriving DecidableEq, Repr

/-- One argument of the variadic `DicePool.__init__`. -/
inductive Component where
  | int (n : Int)
  | die (d : Dice)
  | rng (r : Rng)
  | pool (p : DicePool)
deriving DecidableEq, Repr

/-- One iteration of the argument loop in `DicePool.__init__`: an `int` is
added to the modifier; a `Dice` or `range` is normalized, its canonical range
appended and its modifier delta added; any other argument (in particular a
`DicePool`) matches no `isinstance` branch and is ignored. -/
def poolStep (acc : List Rng × Int) (arg : Component) : List Rng × Int :=
  match arg with
  | .int n => (acc.1, acc.2 + n)
  | .die d =>
      let nrm := normalize_rng d.rng
      (acc.1 ++ [nrm.1], acc.2 + nrm.2)
  | .rng r =>
      let nrm := normalize_rng r
      (acc.1 ++ [nrm.1], acc.2 + nrm.2)
  | .pool _ => acc

/-- `DicePool.__init__`: fold the argument loop over the variadic arguments,
starting from an empty range list and modifier `0`. -/
def poolInit (args : List Component) : DicePool :=
  let acc := args.foldl poolStep ([], 0)
  ⟨acc.1, acc.2⟩

/-- `itertools.product` over lists, leftmost factor varying slowest (the order
Python produces). -/
def cartProd : List (List Int) → List (List Int)
  | [] => [[]]
  | l :: ls => l.flatMap (fun a => (cartProd ls).map (a :: ·))

/-- The list of totals from which the distribution of the pool is tallied:
`sum(result) + self.mod for result in itertools.product(*self.rngs)`. -/
def DicePool.outcomes (p : DicePool) : List Int :=
  (cartProd (p.rngs.map Rng.toList)).map (fun xs => xs.sum + p.mod)

/-- One step of `collections.Counter`: increment the multiplicity of `x` in an
insertion-ordered association list, inserting it at the end when absent
(Python dicts preserve insertion order). -/
def bumpTally : List (Int × Nat) → Int → List (Int × Nat)
  | [], x => [(x, 1)]
  | (k, v) :: rest, x =>
      if k = x then (k, v + 1) :: rest else (k, v) :: bumpTally rest x

/-- `collections.Counter(iterable)`: tally the elements in iteration order. -/
def counter (l : List Int) : List (Int × Nat) :=
  l.foldl bumpTally []

/-- Look up the multiplicity of a key in a tally (0 when absent, matching
`Counter.__getitem__`). -/
def countOf : List (Int × Nat) → Int → Nat
  | [], _ => 0
  | kv :: rest, t => if kv.1 = t then kv.2 else countOf rest t

/-- `self.dist`: the `Counter` built in `DicePool.__init__`. -/
def DicePool.distList (p : DicePool) : List (Int × Nat) :=
  counter p.outcomes

/-- `DicePool.__add__` with an `int`:
`DicePool(*self.rngs, self.mod + other)`. -/
def DicePool.addInt (p : DicePool) (n : Int) : DicePool :=
  poolInit (p.rngs.map Component.rng ++ [Component.int (p.mod + n)])

/-- `DicePool.__add__` with a `Dice`:
`DicePool(*self.rngs, other.rng, self.mod)`. -/
def DicePool.addDie (p : DicePool) (d : Dice) : DicePool :=
  poolInit (p.rngs.map Component.rng ++ [Component.rng d.rng, Component.int p.mod])

/-- `DicePool.__add__` with a `DicePool`:
`DicePool(*(self.rngs + other.rngs), self.mod + other.mod)`. -/
def DicePool.addPool (p q : DicePool) : DicePool :=
  poolInit ((p.rngs ++ q.rngs).map Component.rng ++ [Component.int (p.mod + q.mod)])

/-- Python `list.remove`: drop the first element equal (here: range-value
equal) to the given one. -/
def removeFirst : List Rng → Rng → List Rng
  | [], _ => []
  | r :: rs, c => if pyRangeEq r c then rs else r :: removeFirst rs c

/-- `DicePool.__sub__` with a `Dice`: normalize the die; if its canonical
range is value-equal to some pool range, remove the first such occurrence and
rebuild with modifier `self.mod - mod`; otherwise raise `ValueError`. -/
def DicePool.sub (p : DicePool) (d : Dice) : Except String DicePool :=
  let nrm := normalize_rng d.rng
  if p.rngs.any (fun r => pyRangeEq r nrm.1) then
    Except.ok (poolInit ((removeFirst p.rngs nrm.1).map Component.rng
      ++ [Component.int (p.mod - nrm.2)]))
  else
    Except.error "ValueError: This range does not contain this die"

/-- A Python object appearing in the tuples compared by `DicePool.__eq__`:
either an `int` or a `range`. -/
inductive PyObj where
  | int (n : Int)
  | rng (r : Rng)

/-- Python `==` between such objects: ints by value, ranges by value sequence,
an int and a range are never equal. -/
def PyObj.beq : PyObj → PyObj → Bool
  | .int a, .int b => a == b
  | .rng a, .rng b => pyRangeEq a b
  | _, _ => false

instance : BEq PyObj := ⟨PyObj.beq⟩

/-- `DicePool.__eq__` against a `Dice`:
`self.rngs == tuple(rng) and self.mod == mod` where `(rng, mod)` is the
normalized die.  Note `tuple(rng)` converts the range to the tuple of its
ELEMENTS, so the left side compares a tuple of range objects with a tuple of
ints. -/
def DicePool.eqDice (p : DicePool) (d : Dice) : Bool :=
  let nrm := normalize_rng d.rng
  (p.rngs.map PyObj.rng == nrm.1.toList.map PyObj.int) && (p.mod == nrm.2)

/-- `DicePool.roll`: `product = list(itertools.product(*self.rngs))`, then
`sum(product[random.randrange(len(product) - 1)])` — the drawn index `i`
satisfies `i < len(product) - 1` (the last tuple is never drawn), and the
returned value is the sum of the tuple WITHOUT `self.mod`. -/
def DicePool.roll (p : DicePool) (i : Nat) : Int :=
  ((cartProd (p.rngs.map Rng.toList)).getD i []).sum

/-- Whether an `Except` is a success. -/
def exceptOk {ε α : Type} : Except ε α → Bool
  | .ok _ => true
  | .error _ => false

/-- Whether an `Except` is a failure (a raised exception). -/
def exceptErr {ε α : Type} : Except ε α → Bool
  | .ok _ => false
  | .error _ => true

/-! ### Helper lemmas about the `Counter` model -/

theorem countOf_bumpTally (c : List (Int × Nat)) (x t : Int) :
    countOf (bumpTally c x) t = countOf c t + (if x = t then 1 else 0) := by
  induction c with
  | nil => by_cases h : x = t <;> simp [bumpTally, countOf, h]
  | cons kv rest ih =>
      obtain ⟨k, v⟩ := kv
      by_cases hk : k = x
      · subst hk
        by_cases ht : k = t <;> simp [bumpTally, countOf, ht]
      · by_cases ht : k = t
        · subst ht
          have hxt : ¬ x = k := fun hxk => hk hxk.symm
          simp [bumpTally, countOf, hk, hxt]
        · simp [bumpTally, countOf, hk, ht, ih]

theorem countOf_foldl_bumpTally (l : List Int) :
    ∀ (c : List (Int × Nat)) (t : Int),
      countOf (l.foldl bumpTally c) t = countOf c t + l.count t := by
  induction l with
  | nil => intro c t; simp
  | cons x xs ih =>
      intro c t
      rw [List.foldl_cons, ih, countOf_bumpTally, List.count_cons]
      by_cases h : x = t
      · simp [h]
        omega
      · simp [h]

theorem countOf_counter (l : List Int) (t : Int) :
    countOf (counter l) t = l.count t := by
  simpa [counter, countOf] using countOf_foldl_bumpTally l [] t

theorem mass_bumpTally (c : List (Int × Nat)) (x : Int) :
    ((bumpTally c x).map Prod.snd).sum = (c.map Prod.snd).sum + 1 := by
  induction c with
  | nil => simp [bumpTally]
  | cons kv rest ih =>
      obtain ⟨k, v⟩ := kv
      by_cases h : k = x <;> simp [bumpTally, h, ih] <;> omega

theorem mass_foldl_bumpTally (l : List Int) :
    ∀ c : List (Int × Nat),
      ((l.foldl bumpTally c).map Prod.snd).sum = (c.map Prod.snd).sum + l.length := by
  induction l with
  | nil => intro c; simp
  | cons x xs ih =>
      intro c
      rw [List.foldl_cons, ih, mass_bumpTally]
      simp only [List.length_cons]
      omega

theorem mass_counter (l : List Int) :
    ((counter l).map Prod.snd).sum = l.length := by
  simpa [counter] using mass_foldl_bumpTally l []

/-! ### Helper lemmas about the Cartesian product -/

theorem length_flatMap_map_cons (l : List Int) (m : List (List Int)) :
    (l.flatMap (fun a => m.map (a :: ·))).length = l.length * m.length := by
  induction l with
  | nil => simp
  | cons a as ih => simp [List.flatMap_cons, ih, Nat.succ_mul]; omega

theorem cartProd_length (ls : List (List Int)) :
    (cartProd ls).length = (ls.map List.length).prod := by
  induction ls with
  | nil => simp [cartProd]
  | cons l rest ih =>
      show (l.flatMap (fun a => (cartProd rest).map (a :: ·))).length = _
      rw [length_flatMap_map_cons, ih, List.map_cons, List.prod_cons]

/-! ### Helper lemmas about the pool constructor and subtraction -/

theorem foldl_poolStep_map_rng (rs : List Rng) :
    ∀ acc : List Rng × Int,
      (rs.map Component.rng).foldl poolStep acc
        = (acc.1 ++ rs.map (fun r => (normalize_rng r).1),
           acc.2 + (rs.map (fun r => (normalize_rng r).2)).sum) := by
  induction rs with
  | nil => intro acc; simp
  | cons r rest ih =>
      intro acc
      rw [List.map_cons, List.foldl_cons]
      show (rest.map Component.rng).foldl poolStep
        (acc.1 ++ [(normalize_rng r).1], acc.2 + (normalize_rng r).2) = _
      rw [ih]
      simp [List.append_assoc, add_assoc]

theorem normalize_rng_of_canonical (r : Rng) (h : r.start = 1) :
    normalize_rng r = (r, 0) := by
  obtain ⟨s, e⟩ := r
  simp only [normalize_rng]
  simp only at h
  subst h
  norm_num

theorem map_normalize_rng_fst (rs : List Rng) (h : ∀ r ∈ rs, r.start = 1) :
    rs.map (fun r => (normalize_rng r).1) = rs := by
  induction rs with
  | nil => simp
  | cons r rest ih =>
      rw [List.map_cons, normalize_rng_of_canonical r (h r (by simp)),
        ih (fun x hx => h x (by simp [hx]))]

theorem map_normalize_rng_snd (rs : List Rng) (h : ∀ r ∈ rs, r.start = 1) :
    (rs.map (fun r => (normalize_rng r).2)).sum = 0 := by
  induction rs with
  | nil => simp
  | cons r rest ih =>
      rw [List.map_cons, List.sum_cons, normalize_rng_of_canonical r (h r (by simp)),
        ih (fun x hx => h x (by simp [hx]))]
      simp

theorem pyRangeEq_self (r : Rng) : pyRangeEq r r = true := by
  simp [pyRangeEq]

theorem removeFirst_append_singleton (rs : List Rng) (c : Rng)
    (h : ∀ r ∈ rs, pyRangeEq r c = false) :
    removeFirst (rs ++ [c]) c = rs := by
  induction rs with
  | nil => simp [removeFirst, pyRangeEq_self]
  | cons r rest ih =>
      have hr := h r (by simp)
      simp only [List.cons_append, removeFirst, hr]
      simp [ih (fun x hx => h x (by simp [hx]))]

theorem removeFirst_length (l : List Rng) (c : Rng)
    (h : l.any (fun r => pyRangeEq r c) = true) :
    (removeFirst l c).length + 1 = l.length := by
  induction l with
  | nil => simp at h
  | cons r rest ih =>
      by_cases hr : pyRangeEq r c = true
      · simp [removeFirst, hr]
      · have hr' : pyRangeEq r c = false := by simpa using hr
        simp only [List.any_cons, Bool.or_eq_true] at h
        rcases h with h | h
        · exact absurd h hr
        · rw [show removeFirst (r :: rest) c = r :: removeFirst rest c from by
            simp [removeFirst, hr']]
          have hlen := ih h
          simp only [List.length_cons]
          omega

/-! ### Claim theorems -/

/-- C9: for every integer range `[a, b)` with `b > a`, `normalize_rng` returns
the canonical range `[1, b - a + 1)` with modifier `a - 1`; shifting the
canonical value sequence by the modifier recovers the original value
sequence; and normalizing the already-canonical result again yields the same
range with modifier `0`. -/
theorem normalize_rng_spec (a b : Int) (h : a < b) :
    normalize_rng ⟨a, b⟩ = (⟨1, b - a + 1⟩, a - 1)
    ∧ (normalize_rng ⟨a, b⟩).1.toList.map (fun x => x + (normalize_rng ⟨a, b⟩).2)
        = (Rng.mk a b).toList
    ∧ normalize_rng (normalize_rng ⟨a, b⟩).1 = ((normalize_rng ⟨a, b⟩).1, 0) := by
  have h1 : normalize_rng ⟨a, b⟩ = (⟨1, b - a + 1⟩, a - 1) := by
    have e1 : a - (a - 1) = 1 := by ring
    have e2 : b - (a - 1) = b - a + 1 := by ring
    simp [normalize_rng, e1, e2]
  refine ⟨h1, ?_, ?_⟩
  · rw [h1]
    simp only [Rng.toList, List.map_map]
    have hn : (b - a + 1 - 1).toNat = (b - a).toNat := by omega
    rw [hn]
    apply List.map_congr_left
    intro i _
    simp only [Function.comp_apply]
    omega
  · rw [h1]
    simp [normalize_rng]

/-- C9 witness: the theorem instantiated at the range `[4, 10)` (a `d6 + 3`). -/
theorem normalize_rng_spec_witness :
    (4 : Int) < 10
    ∧ (normalize_rng ⟨4, 10⟩ = (⟨1, (10 : Int) - 4 + 1⟩, (4 : Int) - 1)
        ∧ (normalize_rng ⟨4, 10⟩).1.toList.map (fun x => x + (normalize_rng ⟨4, 10⟩).2)
            = (Rng.mk 4 10).toList
        ∧ normalize_rng (normalize_rng ⟨4, 10⟩).1 = ((normalize_rng ⟨4, 10⟩).1, 0)) :=
  ⟨by norm_num, normalize_rng_spec 4 10 (by norm_num)⟩

/-- C10 counterexample: `Dice(0)` does not construct — the average computation
`sum(self.rng) / (self.rng.stop - 1)` divides by zero, so the constructor
raises `ZeroDivisionError`, refuting totality over the integers. -/
theorem diceInit_zero_raises :
    diceInit 0 none = Except.error "ZeroDivisionError: division by zero" := rfl

/-- C10 amended: with integer arguments, `Dice(p1)` / `Dice(p1, p2)` succeeds
exactly when the stored range does not make `rng.stop - 1` zero, i.e. unless
`p1 = 0` in the one-argument form or `p2 = 0` in the two-argument form (where
the average computation raises `ZeroDivisionError`); the non-integer
`ValueError` lies outside the integer-typed model. -/
theorem diceInit_ok_iff (p1 : Int) (p2 : Option Int) :
    exceptOk (diceInit p1 p2) = true ↔ p2.getD p1 ≠ 0 := by
  by_cases h : p2.getD p1 = 0 <;> simp [diceInit, h, exceptOk]

/-- C3: `Dice(6)` has `min = 1`, `max = 6`, `sides = 6`, `average = 3.5`, and
`Dice(4, 12)` has `min = 4` and `max = 12` as the claim states; but its
`average` is `sum(range(4, 13)) / (13 - 1) = 72 / 12 = 6.0`, not the
arithmetic mean `8.0` of its faces — the denominator of `avg` in
`Dice.__init__` is `rng.stop - 1` (the maximal face), not the face count. -/
theorem dice_attrs_eval :
    diceInit 6 none = Except.ok (diceMk 6 none)
    ∧ (diceMk 6 none).min = 1 ∧ (diceMk 6 none).max = 6
    ∧ (diceMk 6 none).sides = 6 ∧ (diceMk 6 none).avg = 7 / 2
    ∧ diceInit 4 (some 12) = Except.ok (diceMk 4 (some 12))
    ∧ (diceMk 4 (some 12)).min = 4 ∧ (diceMk 4 (some 12)).max = 12
    ∧ (diceMk 4 (some 12)).avg = 6 ∧ (diceMk 4 (some 12)).avg ≠ 8 := by
  have e6 : (diceMk 6 none).avg = (((Rng.mk 1 7).toList.sum : Int) : ℚ) / ((6 : Int) : ℚ) := rfl
  have s6 : (Rng.mk 1 7).toList.sum = 21 := by decide
  have e412 : (diceMk 4 (some 12)).avg
      = (((Rng.mk 4 13).toList.sum : Int) : ℚ) / ((12 : Int) : ℚ) := rfl
  have s412 : (Rng.mk 4 13).toList.sum = 72 := by decide
  refine ⟨rfl, rfl, rfl, rfl, ?_, rfl, rfl, rfl, ?_, ?_⟩
  · rw [e6, s6]; norm_num
  · rw [e412, s412]; norm_num
  · rw [e412, s412]; norm_num

/-- C2: the three probability queries that delegate to `Dice._chances`
(`rge`, `rlt`, `rle`) never return: `_chances` applies `len` to a generator
expression, which raises `TypeError` on every call — here evaluated on
`Dice(6)` with threshold `3`, where the claim expects `4/6`, `2/6` and `3/6`.
Only `rgt` (which uses `len(list(filter(...)))`) returns, as evaluated in the
last conjunct. -/
theorem dice_chances_eval :
    Dice.rge (diceMk 6 none) 3 = Except.error "TypeError: object of type generator has no len"
    ∧ Dice.rlt (diceMk 6 none) 3 = Except.error "TypeError: object of type generator has no len"
    ∧ Dice.rle (diceMk 6 none) 3 = Except.error "TypeError: object of type generator has no len"
    ∧ Dice.rgt (diceMk 6 none) 3 = 1 / 2 := by
  have hf : (List.filter (fun i => decide ((3 : Int) < i)) (diceMk 6 none).rng.toList).length
      = 3 := by decide
  refine ⟨rfl, rfl, rfl, ?_⟩
  simp only [Dice.rgt]
  rw [hf, show (diceMk 6 none).max = 6 from rfl]
  norm_num

/-- C4: rolls evaluated against the model of `random.randrange`.
`Dice(6).roll()` indeed yields exactly the faces `1..6`.  But for
`DicePool(Die(6), 3)` the full outcome space has 6 tuples while the code draws
`randrange(len(product) - 1)`, i.e. only indices `0..4`, and returns the bare
tuple sum without `self.mod`: the reachable results are `[1, 2, 3, 4, 5]`,
not totals in `[4, 9]`, the tuple `(6,)` is unreachable, and the modifier `3`
is never added. -/
theorem roll_eval :
    (List.range 6).map (Dice.roll (diceMk 6 none)) = [1, 2, 3, 4, 5, 6]
    ∧ (cartProd ((poolInit [Component.die (diceMk 6 none), Component.int 3]).rngs.map
        Rng.toList)).length = 6
    ∧ (List.range 5).map
        (DicePool.roll (poolInit [Component.die (diceMk 6 none), Component.int 3]))
        = [1, 2, 3, 4, 5]
    ∧ (poolInit [Component.die (diceMk 6 none), Component.int 3]).mod = 3 := by
  refine ⟨by decide, by decide, by decide, by decide⟩

/-- C5: pool-versus-die equality evaluated.  `DicePool(range(1,7))` does
consist of exactly the canonical range of `Die(6)` with matching modifier
(third and fourth conjuncts), yet `__eq__` returns `False` — it compares the
tuple of range objects `self.rngs` with `tuple(rng)`, the tuple of the INTS
`1..6`, so the claimed equality never holds; the claimed inequality for
`DicePool(Die(6), Die(6))` does evaluate to `False` as stated. -/
theorem pool_eq_dice_eval :
    DicePool.eqDice (poolInit [Component.rng ⟨1, 7⟩]) (diceMk 6 none) = false
    ∧ DicePool.eqDice (poolInit [Component.die (diceMk 6 none), Component.die (diceMk 6 none)])
        (diceMk 6 none) = false
    ∧ (poolInit [Component.rng ⟨1, 7⟩]).rngs = [(normalize_rng (diceMk 6 none).rng).1]
    ∧ (poolInit [Component.rng ⟨1, 7⟩]).mod = (normalize_rng (diceMk 6 none).rng).2 := by
  refine ⟨by decide, by decide, by decide, by decide⟩

/-- C6 counterexample: passing the pool `DicePool(Die(6), 3)` as a component
to the `DicePool` constructor yields the empty pool — its range is not
appended and its modifier is not summed in, contrary to the claim. -/
theorem poolInit_pool_component_cex :
    ¬ ((poolInit [Component.pool (poolInit [Component.die (diceMk 6 none), Component.int 3])]).rngs
          = (poolInit [Component.die (diceMk 6 none), Component.int 3]).rngs
        ∧ (poolInit [Component.pool (poolInit [Component.die (diceMk 6 none), Component.int 3])]).mod
          = (poolInit [Component.die (diceMk 6 none), Component.int 3]).mod) := by
  intro hcl
  exact absurd hcl.1 (by decide)

/-- C6 amended: a `DicePool` argument to the constructor matches none of the
`isinstance` branches (`int`, `Dice`, `range`) and is silently ignored — the
constructed pool is the one built from the remaining arguments; pool merging
happens only in `__add__`, which itself splices the ranges and modifier of
the other pool into the argument list. -/
theorem poolInit_pool_component_ignored (xs ys : List Component) (q : DicePool) :
    poolInit (xs ++ Component.pool q :: ys) = poolInit (xs ++ ys) := by
  simp [poolInit, List.foldl_append, List.foldl_cons, poolStep]

/-! ### Computation lemmas for `poolInit` on the argument shapes used by
`__add__` and `__sub__` -/

theorem poolInit_rng_int (rs : List Rng) (m : Int) :
    poolInit (rs.map Component.rng ++ [Component.int m])
      = ⟨rs.map (fun r => (normalize_rng r).1),
         (rs.map (fun r => (normalize_rng r).2)).sum + m⟩ := by
  simp only [poolInit, List.foldl_append, foldl_poolStep_map_rng, List.foldl_cons,
    List.foldl_nil, poolStep]
  simp

theorem poolInit_rng_rng_int (rs : List Rng) (r0 : Rng) (m : Int) :
    poolInit (rs.map Component.rng ++ [Component.rng r0, Component.int m])
      = ⟨rs.map (fun r => (normalize_rng r).1) ++ [(normalize_rng r0).1],
         ((rs.map (fun r => (normalize_rng r).2)).sum + (normalize_rng r0).2) + m⟩ := by
  simp only [poolInit, List.foldl_append, foldl_poolStep_map_rng, List.foldl_cons,
    List.foldl_nil, poolStep]
  simp

/-- C1: for a pool built by `DicePool.__init__` from any components, (i) the
distribution maps each total `t` to the number of tuples of the Cartesian
product of the component ranges (one value per range) whose sum plus the
modifier equals `t`; (ii) the sum of all multiplicities equals the product of
the component range sizes (the face counts `n1..nk` of the contributing
dice); and (iii) when the pool has no component ranges the distribution is
exactly `{modifier: 1}`. -/
theorem dicePool_distribution_spec (args : List Component) :
    (∀ t : Int, countOf (poolInit args).distList t
        = ((cartProd ((poolInit args).rngs.map Rng.toList)).filter
            (fun xs => xs.sum + (poolInit args).mod == t)).length)
    ∧ ((poolInit args).distList.map Prod.snd).sum
        = ((poolInit args).rngs.map (fun r => r.toList.length)).prod
    ∧ ((poolInit args).rngs = [] →
        (poolInit args).distList = [((poolInit args).mod, 1)]) := by
  refine ⟨fun t => ?_, ?_, fun h => ?_⟩
  · rw [DicePool.distList, countOf_counter, DicePool.outcomes]
    rw [show ((cartProd ((poolInit args).rngs.map Rng.toList)).map
          (fun xs => xs.sum + (poolInit args).mod)).count t
        = ((cartProd ((poolInit args).rngs.map Rng.toList)).map
          (fun xs => xs.sum + (poolInit args).mod)).countP (· == t) from rfl]
    rw [List.countP_map, List.countP_eq_length_filter]
    rfl
  · rw [DicePool.distList, mass_counter, DicePool.outcomes, List.length_map,
      cartProd_length, List.map_map]
    rfl
  · rw [DicePool.distList, DicePool.outcomes, h]
    simp [cartProd, counter, bumpTally]

/-- C1 witness: the theorem instantiated at the single int component `5` — the
pool has no ranges and its distribution is `{5: 1}`. -/
theorem dicePool_distribution_spec_witness :
    (poolInit [Component.int 5]).rngs = []
    ∧ (poolInit [Component.int 5]).distList = [((poolInit [Component.int 5]).mod, 1)] :=
  ⟨rfl, (dicePool_distribution_spec [Component.int 5]).2.2 rfl⟩

/-- C7: subtraction inverts addition of a die.  For a pool `Q` whose ranges
are canonical (the invariant every constructor-built pool satisfies, since
`normalize_rng` always returns a range starting at 1) and a die `d` whose
canonical range is not otherwise present in `Q` (by range-value equality),
the pool `P = Q + d` satisfies: `P - d` succeeds and yields a pool with the
distribution of `Q` and the modifier of `Q`. -/
theorem dicePool_sub_inverts_add (Q : DicePool) (d : Dice)
    (hQ : ∀ r ∈ Q.rngs, r.start = 1)
    (hno : ∀ r ∈ Q.rngs, pyRangeEq r (normalize_rng d.rng).1 = false) :
    ∃ R : DicePool, (Q.addDie d).sub d = Except.ok R
      ∧ R.distList = Q.distList ∧ R.mod = Q.mod := by
  have hP : Q.addDie d = ⟨Q.rngs ++ [(normalize_rng d.rng).1],
      (0 + (normalize_rng d.rng).2) + Q.mod⟩ := by
    rw [DicePool.addDie, poolInit_rng_rng_int, map_normalize_rng_fst Q.rngs hQ,
      map_normalize_rng_snd Q.rngs hQ]
  have hmem : (Q.rngs ++ [(normalize_rng d.rng).1]).any
      (fun r => pyRangeEq r (normalize_rng d.rng).1) = true := by
    simp [List.any_append, pyRangeEq_self]
  have hrem : removeFirst (Q.rngs ++ [(normalize_rng d.rng).1]) (normalize_rng d.rng).1
      = Q.rngs := removeFirst_append_singleton Q.rngs _ hno
  refine ⟨⟨Q.rngs, Q.mod⟩, ?_, rfl, rfl⟩
  rw [hP, show DicePool.sub
        ⟨Q.rngs ++ [(normalize_rng d.rng).1], (0 + (normalize_rng d.rng).2) + Q.mod⟩ d
      = if (Q.rngs ++ [(normalize_rng d.rng).1]).any
            (fun r => pyRangeEq r (normalize_rng d.rng).1) then
          Except.ok (poolInit
            ((removeFirst (Q.rngs ++ [(normalize_rng d.rng).1]) (normalize_rng d.rng).1).map
              Component.rng
              ++ [Component.int (((0 + (normalize_rng d.rng).2) + Q.mod)
                    - (normalize_rng d.rng).2)]))
        else Except.error "ValueError: This range does not contain this die" from rfl,
    if_pos hmem, hrem, poolInit_rng_int, map_normalize_rng_fst Q.rngs hQ,
    map_normalize_rng_snd Q.rngs hQ]
  congr 1
  rw [DicePool.mk.injEq]
  constructor
  · rfl
  · ring

/-- C7 witness: `Q = DicePool(Die(4))`, `d = Die(6)` — the canonical range of
`d6` is absent from `Q`, and `(Q + d6) - d6` reproduces `Q`. -/
theorem dicePool_sub_inverts_add_witness :
    (∀ r ∈ (poolInit [Component.die (diceMk 4 none)]).rngs, r.start = 1)
    ∧ (∀ r ∈ (poolInit [Component.die (diceMk 4 none)]).rngs,
        pyRangeEq r (normalize_rng (diceMk 6 none).rng).1 = false)
    ∧ ∃ R : DicePool,
        ((poolInit [Component.die (diceMk 4 none)]).addDie (diceMk 6 none)).sub (diceMk 6 none)
          = Except.ok R
        ∧ R.distList = (poolInit [Component.die (diceMk 4 none)]).distList
        ∧ R.mod = (poolInit [Component.die (diceMk 4 none)]).mod :=
  ⟨by decide, by decide,
    dicePool_sub_inverts_add (poolInit [Component.die (diceMk 4 none)]) (diceMk 6 none)
      (by decide) (by decide)⟩

/-- C8: `DicePool.__sub__` with a die raises `ValueError` exactly when no pool
range is range-value equal to the canonical range of the die; and whenever it
succeeds it removes exactly one range, so it is never a silent no-op. -/
theorem dicePool_sub_error_iff (p : DicePool) (d : Dice) :
    (exceptErr (p.sub d) = true
      ↔ ¬ ∃ r ∈ p.rngs, pyRangeEq r (normalize_rng d.rng).1 = true)
    ∧ ∀ q : DicePool, p.sub d = Except.ok q → q.rngs.length + 1 = p.rngs.length := by
  have hsub : p.sub d = if p.rngs.any (fun r => pyRangeEq r (normalize_rng d.rng).1) then
      Except.ok (poolInit ((removeFirst p.rngs (normalize_rng d.rng).1).map Component.rng
        ++ [Component.int (p.mod - (normalize_rng d.rng).2)]))
    else Except.error "ValueError: This range does not contain this die" := rfl
  by_cases h : p.rngs.any (fun r => pyRangeEq r (normalize_rng d.rng).1) = true
  · have hex : ∃ r ∈ p.rngs, pyRangeEq r (normalize_rng d.rng).1 = true := by
      simpa [List.any_eq_true] using h
    refine ⟨by simp [hsub, if_pos h, exceptErr, hex], ?_⟩
    intro q hq
    rw [hsub, if_pos h] at hq
    have hq' : q = poolInit ((removeFirst p.rngs (normalize_rng d.rng).1).map Component.rng
        ++ [Component.int (p.mod - (normalize_rng d.rng).2)]) := by
      injection hq with h1
      exact h1.symm
    rw [hq', poolInit_rng_int]
    simp only [List.length_map]
    exact removeFirst_length p.rngs _ h
  · have hex : ¬ ∃ r ∈ p.rngs, pyRangeEq r (normalize_rng d.rng).1 = true := by
      simpa [List.any_eq_true] using h
    refine ⟨by simp [hsub, if_neg h, exceptErr, hex], ?_⟩
    intro q hq
    rw [hsub, if_neg h] at hq
    exact Except.noConfusion hq

/-- C8 witness: subtracting `Die(6)` from `DicePool(Die(6), Die(4))` succeeds
and removes exactly one range. -/
theorem dicePool_sub_error_iff_witness :
    DicePool.sub (poolInit [Component.die (diceMk 6 none), Component.die (diceMk 4 none)])
        (diceMk 6 none) = Except.ok (DicePool.mk [⟨1, 5⟩] 0)
    ∧ (DicePool.mk [⟨1, 5⟩] 0).rngs.length + 1
        = (poolInit [Component.die (diceMk 6 none), Component.die (diceMk 4 none)]).rngs.length :=
  ⟨rfl,
    (dicePool_sub_error_iff
        (poolInit [Component.die (diceMk 6 none), Component.die (diceMk 4 none)])
        (diceMk 6 none)).2
      (DicePool.mk [⟨1, 5⟩] 0) rfl⟩
